import Mathlib

/-!
Verification of the cluster provisioning workflow of the spotctl CLI
(rackspace-spot/spotctl).  The definitions below are a shallow embedding of
the Go source.  Machine floats are modelled as exact decimal numbers
(a natural mantissa scaled by a power of ten): every price string handled by
the workflow is a plain decimal literal, for which Go float64 parsing,
comparison with zero, and the percent-f / percent-g formatting used by the
code are exact on the magnitudes involved.  Rounding to three decimals is
modelled as round half up; no claim below depends on a tie.  Remote calls
are modelled by oracles (environments) that fix the success of each call.
-/

namespace Spotctl

/-- Decimal digit test, as in the character comparisons of the Go source. -/
def isDigitCh (c : Char) : Bool := 48 ≤ c.toNat && c.toNat ≤ 57

/-- Character for a single decimal digit, 0 mapping to the character 0. -/
def digitCh (d : Nat) : Char := Char.ofNat (48 + d)

/-- Little-endian decimal digits of a natural number, fuel-indexed so the
recursion is structural.  The fuel is always at least the number itself. -/
def natDigsAux : Nat → Nat → List Char
  | 0, _ => []
  | _ + 1, 0 => []
  | fuel + 1, n + 1 => digitCh ((n + 1) % 10) :: natDigsAux fuel ((n + 1) / 10)

/-- Little-endian decimal digits of a natural number, empty for zero. -/
def natDigsLE (n : Nat) : List Char := natDigsAux n n

/-- Decimal string of a natural number, modelling the integer part of the
formatting verbs used by the Go source. -/
def natStr (n : Nat) : String := if n = 0 then "0" else String.mk (natDigsLE n).reverse

/-- Decimal string of m left-padded with zeros to width w, modelling the
fractional part of fixed-width formatting (m is always below 10 ^ w here). -/
def padFrac (w m : Nat) : String :=
  String.mk (List.replicate (w - (natDigsLE m).length) '0' ++ (natDigsLE m).reverse)

/-- Whitespace test of Go strings.TrimSpace restricted to ASCII, which covers
every string that reaches it in this workflow. -/
def isGoSpace (c : Char) : Bool :=
  c = ' ' || c = '\t' || c = '\n' || c = '\x0d' || c.toNat = 11 || c.toNat = 12

/-- Go strings.TrimSpace on ASCII input. -/
def goTrimSpace (s : String) : String :=
  String.mk (((s.data.dropWhile isGoSpace).reverse.dropWhile isGoSpace).reverse)

/-- Go strings.ReplaceAll of the dollar sign by the empty string. -/
def removeDollar (s : String) : String := String.mk (s.data.filter (fun c => c ≠ '$'))

/-- Go strings.TrimRight with cutset 0: drop every trailing zero character. -/
def goTrimRightZeros (s : String) : String :=
  String.mk ((s.data.reverse.dropWhile (fun c => c = '0')).reverse)

/-- Go strings.TrimSuffix with the dot suffix. -/
def goTrimDotSuffix (s : String) : String :=
  match s.data.getLast? with
  | some c => if c = '.' then String.mk s.data.dropLast else s
  | none => s

/-- Split of a character list at every dot, modelling Go strings.Split with a
dot separator. -/
def splitOnDot : List Char → List (List Char)
  | [] => [[]]
  | c :: rest =>
    let r := splitOnDot rest
    if c = '.' then [] :: r
    else match r with
      | h :: t => (c :: h) :: t
      | [] => [[c]]

/-- Exact decimal value, the model of a Go float64 carrying a parsed price:
the value is mant divided by 10 ^ exp, negated when neg is set. -/
structure GoDec where
  neg : Bool
  mant : Nat
  exp : Nat
deriving DecidableEq, Repr

/-- Numeric value of a character list of decimal digits. -/
def digitsVal (l : List Char) : Nat := l.foldl (fun a c => 10 * a + (c.toNat - 48)) 0

/-- Test for a character other than the decimal point. -/
def isNotDot (c : Char) : Bool := c != '.'

/-- Body of Go strconv.ParseFloat after the optional sign: digits with at
most one dot and at least one digit.  The embedding covers plain decimal
literals, the only float syntax produced or consumed by this workflow
(exponent, hexadecimal, infinity and NaN spellings are out of its domain). -/
def parseDecBody (neg : Bool) (l : List Char) : Option GoDec :=
  match l.dropWhile isNotDot with
  | [] =>
    if !(l.takeWhile isNotDot).isEmpty && (l.takeWhile isNotDot).all isDigitCh then
      some ⟨neg, digitsVal (l.takeWhile isNotDot), 0⟩
    else none
  | _ :: fp =>
    if ((l.takeWhile isNotDot).all isDigitCh && fp.all isDigitCh)
        && (!(l.takeWhile isNotDot).isEmpty || !fp.isEmpty) && !fp.contains '.' then
      some ⟨neg, digitsVal (l.takeWhile isNotDot) * 10 ^ fp.length + digitsVal fp, fp.length⟩
    else none

/-- Go strconv.ParseFloat on plain decimal literals, list form. -/
def goParseFloatDecL : List Char → Option GoDec
  | [] => none
  | c :: rest =>
    if c = '-' then parseDecBody true rest
    else if c = '+' then parseDecBody false rest
    else parseDecBody false (c :: rest)

/-- Go strconv.ParseFloat on plain decimal literals, with optional sign. -/
def goParseFloatDec (s : String) : Option GoDec := goParseFloatDecL s.data

/-- Nonpositivity test matching the Go comparison of the parsed price with
zero (a price is at most zero exactly when negated or of zero mantissa). -/
def decLeZero (d : GoDec) : Bool := d.neg || d.mant == 0

/-- Go fmt.Sprintf with the percent-point-3-f verb on an exact decimal:
round half up to three decimals and print with exactly three decimals. -/
def sprintf3f (d : GoDec) : String :=
  let den := 10 ^ d.exp
  let n3 := (2 * (d.mant * 1000) + den) / (2 * den)
  (if d.neg && d.mant != 0 then "-" else "")
    ++ natStr (n3 / 1000) ++ "." ++ padFrac 3 (n3 % 1000)

/-- Removal of trailing decimal zeros from an exact decimal, fuel-indexed by
the exponent so the recursion is structural. -/
def canonAux : Nat → GoDec → GoDec
  | 0, d => d
  | fuel + 1, d =>
    if d.exp = 0 then d
    else if d.mant % 10 = 0 then canonAux fuel ⟨d.neg, d.mant / 10, d.exp - 1⟩
    else d

/-- Shortest exact-decimal form: trailing fractional zeros removed. -/
def canonGoDec (d : GoDec) : GoDec := canonAux d.exp d

/-- Go fmt.Sprintf with the percent-g verb on an exact decimal, in the
fixed-point regime of percent-g (magnitudes between 1e-4 and 1e21, which
covers every price in this workflow): shortest decimal form, trailing zeros
stripped, no decimal point for integral values. -/
def sprintfG (d : GoDec) : String :=
  let c := canonGoDec d
  (if c.neg && c.mant != 0 then "-" else "")
    ++ (if c.exp = 0 then natStr c.mant
        else natStr (c.mant / 10 ^ c.exp) ++ "." ++ padFrac c.exp (c.mant % 10 ^ c.exp))

/-- Errors of the two bid-price helpers, one constructor per distinct Go
error message. -/
inductive PriceErr where
  | notANumber
  | notPositive
  | emptyPrice
  | noValidNumber
  | invalidFormat
deriving DecidableEq, Repr

/-- Pad of a formatted price to three decimals: Go splits at the dot and,
with exactly two parts and a short fraction, appends the missing zeros.
Mirrors the final else-if of validateBidPrice in src/unnamed/part_008. -/
def padTo3Decimals (s : String) : String :=
  match splitOnDot s.data with
  | [a, b] =>
    if b.length < 3 then String.mk (a ++ '.' :: b ++ List.replicate (3 - b.length) '0')
    else s
  | _ => s

/-- validateBidPrice from src/unnamed/part_008 lines 1830-1862: parse the
price, reject nonpositive values, format with three decimals, strip trailing
zeros and a trailing dot, then restore three decimals for integral values
and pad short fractions back to three digits.  The integrality test models
the Go comparison of the value with its int64 truncation (exact for the
magnitudes of this workflow). -/
def validateBidPrice (bidPrice : String) : Except PriceErr String :=
  match goParseFloatDec bidPrice with
  | none => .error .notANumber
  | some val =>
    if decLeZero val then .error .notPositive
    else
      let f2 := goTrimDotSuffix (goTrimRightZeros (sprintf3f val))
      if !(f2.data.contains '.') && (val.mant % 10 ^ val.exp == 0) then
        .ok (f2 ++ ".000")
      else if 0 < (f2.data.filter (fun c => c = '.')).length then
        .ok (padTo3Decimals f2)
      else .ok f2

/-- Best-effort scan of getBidPrice: keep digits and the first dot. -/
def cleanScanAux : Bool → List Char → List Char
  | _, [] => []
  | decimalFound, c :: rest =>
    if isDigitCh c then c :: cleanScanAux decimalFound rest
    else if c = '.' && !decimalFound then c :: cleanScanAux true rest
    else cleanScanAux decimalFound rest

/-- Two-stage numeric extraction of getBidPrice: direct parse of the
dollar-stripped, space-trimmed input, then a parse of the digits-and-dot
scan when the direct parse fails. -/
def extractPrice (priceStr : String) : Option GoDec :=
  let trimmed := goTrimSpace (removeDollar priceStr)
  match goParseFloatDec trimmed with
  | some p => some p
  | none =>
    match goParseFloatDec (String.mk (cleanScanAux false trimmed.data)) with
    | some p => some p
    | none => none

/-- getBidPrice from src/unnamed/part_008 lines 1582-1625: reject the empty
string, strip dollar signs and whitespace, parse directly or through the
digits-and-dot scan, reject nonpositive values, and format the result with
the percent-g verb. -/
def getBidPrice (priceStr : String) : Except PriceErr String :=
  if priceStr = "" then .error .emptyPrice
  else
    let trimmed := goTrimSpace (removeDollar priceStr)
    if trimmed = "" then .error .noValidNumber
    else
      match (match goParseFloatDec trimmed with
             | some p => Except.ok p
             | none =>
               let clean := cleanScanAux false trimmed.data
               if clean.isEmpty then Except.error PriceErr.noValidNumber
               else
                 match goParseFloatDec (String.mk clean) with
                 | some p => Except.ok p
                 | none => Except.error PriceErr.invalidFormat) with
      | .error e => .error e
      | .ok price =>
        if decLeZero price then .error .notPositive
        else .ok (sprintfG price)

/-- Bid-price normalization applied immediately before the remote spot-pool
creation call in the final creation path (src/unnamed/part_008 lines
1376-1398): validateBidPrice followed by getBidPrice on its result. -/
def finalPathBidPrice (raw : String) : Except PriceErr String :=
  match validateBidPrice raw with
  | .error e => .error e
  | .ok s => getBidPrice s

/-- Spot node pool record (rxtspot.SpotNodePool, the fields used by the
provisioning workflow). -/
structure SpotNodePool where
  Name : String
  Org : String
  Cloudspace : String
  ServerClass : String
  BidPrice : String
  Desired : Int
deriving DecidableEq, Repr

/-- On-demand node pool record (rxtspot.OnDemandNodePool, the fields used by
the provisioning workflow). -/
structure OnDemandNodePool where
  Name : String
  Org : String
  Cloudspace : String
  ServerClass : String
  Desired : Int
deriving DecidableEq, Repr

/-- createCloudspaceParams from src/unnamed/part_008 lines 1112-1121. -/
structure CreateCloudspaceParams where
  Name : String
  Org : String
  Region : String
  KubernetesVersion : String
  PreemptionWebhookURL : String
  CNI : String
  ConfigPath : String
  SpotNodePools : List SpotNodePool
  OnDemandNodePools : List OnDemandNodePool
deriving DecidableEq, Repr

/-- The closed set of valid region codes (src/unnamed/part_008 lines
1124-1133). -/
def HKG_HKG_1 : String := "hkg-hkg-1"

def US_CENTRAL_ORD_1 : String := "us-central-ord-1"

def AUS_SYD_1 : String := "aus-syd-1"

def UK_LON_1 : String := "uk-lon-1"

def US_EAST_IAD_1 : String := "us-east-iad-1"

def US_CENTRAL_DFW_1 : String := "us-central-dfw-1"

def US_CENTRAL_DFW_2 : String := "us-central-dfw-2"

def US_WEST_SJC_1 : String := "us-west-sjc-1"

/-- isValidRegion from src/unnamed/part_008 lines 1881-1890: membership in
the closed region set. -/
def isValidRegion (region : String) : Bool :=
  region == HKG_HKG_1 || region == US_CENTRAL_ORD_1 || region == AUS_SYD_1
    || region == UK_LON_1 || region == US_EAST_IAD_1 || region == US_CENTRAL_DFW_1
    || region == US_CENTRAL_DFW_2 || region == US_WEST_SJC_1

/-- Validation errors of validateCreateParams, one constructor per distinct
Go error. -/
inductive ValidationError where
  | nameRequired
  | regionRequired
  | regionInvalid (region : String)
  | poolRequired
  | bidPriceRequired (pool : String)
  | invalidBidPrice (pool : String) (e : PriceErr)
  | desiredNotPositive (pool : String)
deriving DecidableEq, Repr

/-- Spot-pool loop of validateCreateParams (src/unnamed/part_008 lines
1681-1691).  The Go loop mutates the pool list in place, rewriting each
validated bid price to its validateBidPrice form; the returned list is the
state of the list when the loop returns, so pools before a failing entry
keep their rewritten prices. -/
def validateSpotPools : List SpotNodePool → Option ValidationError × List SpotNodePool
  | [] => (none, [])
  | p :: rest =>
    if p.BidPrice = "" then (some (.bidPriceRequired p.Name), p :: rest)
    else
      match validateBidPrice p.BidPrice with
      | .error e => (some (.invalidBidPrice p.Name e), p :: rest)
      | .ok newBid =>
        let r := validateSpotPools rest
        (r.1, { p with BidPrice := newBid } :: r.2)

/-- On-demand loop of validateCreateParams (src/unnamed/part_008 lines
1693-1698).  The Go write-back of Desired stores the value just read, an
identity on the record. -/
def validateOnDemandPools : List OnDemandNodePool → Option ValidationError × List OnDemandNodePool
  | [] => (none, [])
  | p :: rest =>
    if p.Desired ≤ 0 then (some (.desiredNotPositive p.Name), p :: rest)
    else
      let r := validateOnDemandPools rest
      (r.1, p :: r.2)

/-- validateCreateParams from src/unnamed/part_008 lines 1656-1699.  The
result pairs the Go error (none on success) with the final state of the
params record, capturing the in-place mutation of the spot-pool bid prices.
In interactive mode every check is skipped. -/
def validateCreateParams (params : CreateCloudspaceParams) (interactive : Bool) :
    Option ValidationError × CreateCloudspaceParams :=
  if interactive then (none, params)
  else if params.Name = "" then (some .nameRequired, params)
  else if params.Region = "" then (some .regionRequired, params)
  else if !isValidRegion params.Region then (some (.regionInvalid params.Region), params)
  else if params.SpotNodePools.isEmpty && params.OnDemandNodePools.isEmpty then
    (some .poolRequired, params)
  else
    let rs := validateSpotPools params.SpotNodePools
    let params1 := { params with SpotNodePools := rs.2 }
    match rs.1 with
    | some e => (some e, params1)
    | none =>
      let ro := validateOnDemandPools params.OnDemandNodePools
      (ro.1, { params1 with OnDemandNodePools := ro.2 })

/-- State of the create-command flag set at RunE entry: the value of the
config flag and the names of the flags explicitly set on the command line
(the flags cobra Visit reaches).  The config flag has an empty default, so a
nonempty config value means the config flag was set. -/
structure FlagVisitState where
  configValue : String
  changedFlags : List String
deriving DecidableEq, Repr

/-- isInteractiveMode from src/unnamed/part_008 lines 1812-1828: never
interactive when the config flag is nonempty, otherwise interactive exactly
when no flag at all was set. -/
def isInteractiveMode (fs : FlagVisitState) : Bool :=
  if fs.configValue ≠ "" then false else fs.changedFlags.isEmpty

/-- The three parameter acquisition strategies. -/
inductive AcquireMode where
  | wizard
  | file
  | flags
deriving DecidableEq, Repr

/-- Source dispatch of the create command (src/unnamed/part_008 lines
1306-1323 together with the config-first branch of loadParamsFromFlags at
lines 1702-1744): the wizard when isInteractiveMode holds, otherwise the
file when a config path is present, otherwise the flags. -/
def selectAcquireMode (fs : FlagVisitState) : AcquireMode :=
  if isInteractiveMode fs then .wizard
  else if fs.configValue ≠ "" then .file
  else .flags

/-- Coherence of a cobra flag state: a nonempty config value implies the
config flag is among the set flags (its default is empty). -/
def FlagStateCoherent (fs : FlagVisitState) : Prop :=
  fs.configValue ≠ "" → "config" ∈ fs.changedFlags

/-- Flag values read by the source-conflict guard of the create command in
src/cmd/cloudspaces.go. -/
structure NamedCreateFlags where
  name : String
  org : String
  region : String
  config : String
deriving DecidableEq, Repr

/-- CLI configuration as far as the guard consults it (GetCLIEssentials
result; none models a failed load). -/
structure CLIEssentials where
  Org : String
  Region : String
deriving DecidableEq, Repr

/-- Errors of the pre-creation guard of the create command in
src/cmd/cloudspaces.go. -/
inductive NamedCreateErr where
  | orgNotSpecified
  | regionNotSpecified
  | conflictingSource
deriving DecidableEq, Repr

/-- Org resolution of src/cmd/cloudspaces.go lines 169-179: the org flag,
else the configured org. -/
def resolvedOrg (fl : NamedCreateFlags) (cfg : Option CLIEssentials) : String :=
  if fl.org = "" then (match cfg with | some c => c.Org | none => "") else fl.org

/-- Region resolution of src/cmd/cloudspaces.go lines 181-188. -/
def resolvedRegion (fl : NamedCreateFlags) (cfg : Option CLIEssentials) : String :=
  if fl.region = "" then (match cfg with | some c => c.Region | none => "") else fl.region

/-- Pre-creation guard of the create command in src/cmd/cloudspaces.go lines
165-194: resolve org and region, then reject a config path combined with a
name flag.  An ok result means the command proceeds toward creation; every
remote mutation of the command comes after this guard. -/
def checkCreateSourcesNamed (fl : NamedCreateFlags) (cfg : Option CLIEssentials) :
    Except NamedCreateErr Unit :=
  if resolvedOrg fl cfg = "" then .error .orgNotSpecified
  else if resolvedRegion fl cfg = "" then .error .regionNotSpecified
  else if fl.config ≠ "" && fl.name ≠ "" then .error .conflictingSource
  else .ok ()

/-- Lexicographic order on character lists by code point, the model of the Go
string less-than on the ASCII price strings it compares here. -/
def goStrLtL : List Char → List Char → Bool
  | [], [] => false
  | [], _ :: _ => true
  | _ :: _, [] => false
  | a :: as, b :: bs =>
    if a.toNat < b.toNat then true
    else if b.toNat < a.toNat then false
    else goStrLtL as bs

/-- Go string less-than. -/
def goStringLess (a b : String) : Bool := goStrLtL a.data b.data

/-- Server class record as listed by the wizard (src/internal/prompts.go,
the fields of serverClassInfo). -/
structure ServerClassInfo where
  Name : String
  CPU : String
  Memory : String
  CurrentMarketPricePerHour : String
  MinBidPricePerHour : String
  OnDemandPricePerHour : String
deriving DecidableEq, Repr

/-- Per-class adjustment of PromptForServerClassWithBidPrice
(src/internal/prompts.go lines 193-196): when the minimum bid compares less
than the current market price, the market price replaces it before the
record is displayed or returned. -/
def adjustMinBid (sc : ServerClassInfo) : ServerClassInfo :=
  if goStringLess sc.MinBidPricePerHour sc.CurrentMarketPricePerHour then
    { sc with MinBidPricePerHour := sc.CurrentMarketPricePerHour }
  else sc

/-- Kind of a capacity pool. -/
inductive PoolKind where
  | spot
  | onDemand
deriving DecidableEq, Repr

/-- Remote mutation calls issued by the provisioning workflow.  Pools are
identified by kind and position in their list; read-only calls (the
verification gets and the final cloudspace get) are not mutations and are
not recorded.  deleteCluster stands for a DeleteCloudspace call carrying
the created cloudspace's organization and name in the argument order of
the API, org then name — the form every call site of part_008 and
cmd/cloudspaces.go uses.  deleteCloudspaceCall records a DeleteCloudspace
call by the values actually passed in its org and name positions, for the
one call site whose argument order differs. -/
inductive Action where
  | createCluster
  | deleteCluster
  | createPool (kind : PoolKind) (idx : Nat)
  | deletePool (kind : PoolKind) (idx : Nat)
  | deleteCloudspaceCall (orgArg : String) (nameArg : String)
deriving DecidableEq, Repr

/-- Test for a pool-creation call. -/
def isPoolCreate : Action → Bool
  | .createPool _ _ => true
  | _ => false

/-- Test for a pool-deletion call. -/
def isPoolDelete : Action → Bool
  | .deletePool _ _ => true
  | _ => false

/-- Pool-creation calls of a trace. -/
def poolCreates (tr : List Action) : List Action := tr.filter isPoolCreate

/-- Pool-deletion calls of a trace. -/
def poolDeletes (tr : List Action) : List Action := tr.filter isPoolDelete

/-- Stand-in for the fresh identifier uuid.NewString assigns to a nameless
pool; only its distinctness from operator-chosen names matters here. -/
def uuidStandIn (i : Nat) : String := "uuid-" ++ natStr i

/-- Name a spot pool carries into the creation call (uuid assigned when the
name is empty). -/
def spotPoolName (p : SpotNodePool) (i : Nat) : String :=
  if p.Name = "" then uuidStandIn i else p.Name

/-- Name an on-demand pool carries into the creation call. -/
def odPoolName (p : OnDemandNodePool) (i : Nat) : String :=
  if p.Name = "" then uuidStandIn i else p.Name

/-- Terminal results of the context-cancellation version of the create
command (src/unnamed/part_008 lines 1281-1490), one constructor per distinct
return. -/
inductive OutcomeA where
  | success
  | cancelledBeforeCreate
  | clusterCreateFailed
  | cancelledDuringSpot
  | cancelledDuringOnDemand
  | invalidBid (pool : String)
  | spotCreateFailed (pool : String)
  | deleteCloudspaceFailed
  | spotVerifyFailed (pool : String)
  | odCreateFailed (pool : String)
  | odVerifyFailed (pool : String)
  | getCloudspaceFailed
deriving DecidableEq, Repr

/-- Oracle fixing the outcome of every remote call and the cancellation
signal of one run of the context-cancellation create command.  Check point 0
is the select before cluster creation; check point c of a pool iteration is
1 plus the number of pool iterations already entered.  The signal is polled,
so only its value at these points matters. -/
structure EnvA where
  cancelled : Nat → Bool
  clusterCreateOk : Bool
  spotCreateOk : Nat → Bool
  spotVerifyOk : Nat → Bool
  odCreateOk : Nat → Bool
  odVerifyOk : Nat → Bool
  deleteClusterOk : Bool
  getClusterOk : Bool

/-- Spot-pool loop of the context-cancellation create command
(src/unnamed/part_008 lines 1363-1416): poll the signal, normalize the bid
price through validateBidPrice then getBidPrice, create, verify.  On a
cancelled poll the cloudspace is deleted (failure only logged) and a
cancellation error returned; on a failed create the cloudspace is deleted
and, when that delete fails, its error replaces the creation error; a failed
verify returns without any cleanup.  Returns the issued calls and the
terminal outcome, none meaning the loop completed. -/
def spotLoopA (env : EnvA) : Nat → Nat → List SpotNodePool → List Action × Option OutcomeA
  | _, _, [] => ([], none)
  | c, i, p :: rest =>
    if env.cancelled c then ([.deleteCluster], some .cancelledDuringSpot)
    else
      match validateBidPrice p.BidPrice with
      | .error _ => ([], some (.invalidBid p.Name))
      | .ok bp1 =>
        match getBidPrice bp1 with
        | .error _ => ([], some (.invalidBid p.Name))
        | .ok _ =>
          if !env.spotCreateOk i then
            ([.createPool .spot i, .deleteCluster],
             some (if env.deleteClusterOk then .spotCreateFailed (spotPoolName p i)
                   else .deleteCloudspaceFailed))
          else if !env.spotVerifyOk i then
            ([.createPool .spot i], some (.spotVerifyFailed (spotPoolName p i)))
          else
            let r := spotLoopA env (c + 1) (i + 1) rest
            (.createPool .spot i :: r.1, r.2)

/-- On-demand loop of the context-cancellation create command
(src/unnamed/part_008 lines 1418-1460), same discipline without the bid
steps. -/
def odLoopA (env : EnvA) : Nat → Nat → List OnDemandNodePool → List Action × Option OutcomeA
  | _, _, [] => ([], none)
  | c, i, p :: rest =>
    if env.cancelled c then ([.deleteCluster], some .cancelledDuringOnDemand)
    else if !env.odCreateOk i then
      ([.createPool .onDemand i, .deleteCluster],
       some (if env.deleteClusterOk then .odCreateFailed (odPoolName p i)
             else .deleteCloudspaceFailed))
    else if !env.odVerifyOk i then
      ([.createPool .onDemand i], some (.odVerifyFailed (odPoolName p i)))
    else
      let r := odLoopA env (c + 1) (i + 1) rest
      (.createPool .onDemand i :: r.1, r.2)

/-- Creation phase of the context-cancellation create command
(src/unnamed/part_008 lines 1337-1464), entered after validation: poll the
signal, create the cloudspace, run the spot loop from check point 1, then
the on-demand loop, then confirm with the final get.  Returns the terminal
outcome and the trace of issued mutation calls. -/
def runCreateCtx (env : EnvA) (spots : List SpotNodePool) (ods : List OnDemandNodePool) :
    OutcomeA × List Action :=
  if env.cancelled 0 then (.cancelledBeforeCreate, [])
  else if !env.clusterCreateOk then (.clusterCreateFailed, [.createCluster])
  else
    let rs := spotLoopA env 1 0 spots
    match rs.2 with
    | some out => (out, .createCluster :: rs.1)
    | none =>
      let ro := odLoopA env (1 + spots.length) 0 ods
      match ro.2 with
      | some out => (out, .createCluster :: rs.1 ++ ro.1)
      | none =>
        (if env.getClusterOk then .success else .getCloudspaceFailed,
         .createCluster :: rs.1 ++ ro.1)

/-- Terminal results of the cleanup-stack version of the create command
(src/unnamed/part_011 lines 723-840). -/
inductive OutcomeB where
  | success
  | spotValidationFailed (idx : Nat)
  | odValidationFailed (idx : Nat)
  | clusterCreateFailed
  | spotCreateFailed (idx : Nat)
  | odCreateFailed (idx : Nat)
  | getCloudspaceFailed
deriving DecidableEq, Repr

/-- Oracle for one run of the cleanup-stack create command. -/
structure EnvB where
  clusterCreateOk : Bool
  spotCreateOk : Nat → Bool
  odCreateOk : Nat → Bool
  getClusterOk : Bool

/-- Inline spot-pool validation of the cleanup-stack create command
(src/unnamed/part_011 lines 751-761): first index whose server class is
empty, desired not positive, or bid price empty. -/
def firstBadSpotB : Nat → List SpotNodePool → Option Nat
  | _, [] => none
  | i, p :: rest =>
    if p.ServerClass = "" || p.Desired ≤ 0 || p.BidPrice = "" then some i
    else firstBadSpotB (i + 1) rest

/-- Inline on-demand validation of the cleanup-stack create command
(src/unnamed/part_011 lines 768-775). -/
def firstBadOdB : Nat → List OnDemandNodePool → Option Nat
  | _, [] => none
  | i, p :: rest =>
    if p.ServerClass = "" || p.Desired ≤ 0 then some i
    else firstBadOdB (i + 1) rest

/-- Pool-creation loop of the cleanup-stack create command
(src/unnamed/part_011 lines 792-820): create each pool in order; after a
successful create push its delete onto the cleanup stack; stop at the first
failure.  Returns the creation calls in order, the cleanup stack in push
order, and the failing index if any.  Only the pool count matters to the
loop, the payload having been validated already. -/
def poolLoopB (ok : Nat → Bool) (k : PoolKind) : Nat → Nat → List Action × List Action × Option Nat
  | _, 0 => ([], [], none)
  | i, n + 1 =>
    if ok i then
      let r := poolLoopB ok k (i + 1) n
      (.createPool k i :: r.1, .deletePool k i :: r.2.1, r.2.2)
    else ([.createPool k i], [], some i)

/-- Creation phase of the cleanup-stack create command (src/unnamed/part_011
lines 723-840) for a cloudspace with organization csOrg and name csName:
inline validation, cluster create, spot loop, on-demand loop.  The deferred
cleanup runs exactly when the tracked error is set and the cloudspace was
created: it pops the stack in reverse push order (each delete failure only
logged) and then issues a DeleteCloudspace call.  That call at line 744
passes cloudspace.Name in the org position and cloudspace.Org in the name
position — transposed relative to the DeleteCloudspace(ctx, org, name)
order every other call site in the repository uses — so it is recorded as
deleteCloudspaceCall csName csOrg, a call that addresses the created
cloudspace only when the name and the organization coincide.  On full
success the stack is cleared before the confirming get, so a failed get
still issues the same transposed delete and no pool deletes. -/
def runCreateStack (env : EnvB) (csOrg csName : String) (spots : List SpotNodePool)
    (ods : List OnDemandNodePool) : OutcomeB × List Action :=
  match firstBadSpotB 0 spots with
  | some i => (.spotValidationFailed i, [])
  | none =>
    match firstBadOdB 0 ods with
    | some i => (.odValidationFailed i, [])
    | none =>
      if !env.clusterCreateOk then (.clusterCreateFailed, [.createCluster])
      else
        let rs := poolLoopB env.spotCreateOk .spot 0 spots.length
        match rs.2.2 with
        | some i =>
          (.spotCreateFailed i,
           .createCluster :: rs.1 ++ rs.2.1.reverse ++ [.deleteCloudspaceCall csName csOrg])
        | none =>
          let ro := poolLoopB env.odCreateOk .onDemand 0 ods.length
          match ro.2.2 with
          | some i =>
            (.odCreateFailed i,
             .createCluster :: rs.1 ++ ro.1 ++ (rs.2.1 ++ ro.2.1).reverse
               ++ [.deleteCloudspaceCall csName csOrg])
          | none =>
            if env.getClusterOk then (.success, .createCluster :: rs.1 ++ ro.1)
            else (.getCloudspaceFailed,
              .createCluster :: rs.1 ++ ro.1 ++ [.deleteCloudspaceCall csName csOrg])

/-- Success oracle of the pool numbered j (0-based) in the overall creation
order of a request with nS spot pools: spot pools come first, then the
on-demand pools. -/
def overallOk (env : EnvB) (nS : Nat) (j : Nat) : Bool :=
  if j < nS then env.spotCreateOk j else env.odCreateOk (j - nS)

/-- Overall 0-based creation position of a pool identified by kind and
per-kind index, in a request with nS spot pools. -/
def overallIdx (nS : Nat) (kind : PoolKind) (j : Nat) : Nat :=
  match kind with
  | .spot => j
  | .onDemand => nS + j

/-- A request with a nonempty valid configuration and no pools at all: the
flags path rejects it with the pool-required error, but the interactive
(wizard) path, which skips validateCreateParams entirely, accepts it. -/
def noPoolParams : CreateCloudspaceParams :=
  ⟨"demo", "myorg", "us-east-iad-1", "1.31.1", "", "calico", "", [], []⟩

/-- A request with a single spot pool whose desired count is zero but whose
other fields are valid. -/
def zeroDesiredSpotParams : CreateCloudspaceParams :=
  ⟨"demo", "myorg", "us-east-iad-1", "1.31.1", "", "calico", "",
   [⟨"p1", "myorg", "demo", "gp.vs1.medium-iad", "0.05", 0⟩], []⟩

/-- Bid price of a spot pool rewritten to the canonical validateBidPrice
form, the identity when validateBidPrice rejects it. -/
def canonSpot (p : SpotNodePool) : SpotNodePool :=
  match validateBidPrice p.BidPrice with
  | .ok b => { p with BidPrice := b }
  | .error _ => p

/-- Spot pool with its bid price cleared, the part of the record the
validator never writes. -/
def clearBid (p : SpotNodePool) : SpotNodePool := { p with BidPrice := "" }

/-- Environment for the C1 counterexample: every call succeeds except the
creation of the second spot pool. -/
def envC1 : EnvA :=
  ⟨fun _ => false, true, fun i => i == 0, fun _ => true, fun _ => true, fun _ => true,
   true, true⟩

/-- Two valid spot pools for the C1 counterexample. -/
def spotsC1 : List SpotNodePool :=
  [⟨"p1", "myorg", "demo", "gp.vs1.medium-iad", "0.05", 1⟩,
   ⟨"p2", "myorg", "demo", "gp.vs1.medium-iad", "0.05", 1⟩]

/-- Environment for the C4 witness: the signal fires between check point 0
and check point 1, every remote call succeeds. -/
def envC4 : EnvA :=
  ⟨fun c => decide (1 ≤ c), true, fun _ => true, fun _ => true, fun _ => true,
   fun _ => true, true, true⟩

/-- The pool loop of the cleanup-stack command, when every create succeeds,
creates every pool in order and stacks a delete for each. -/
theorem poolLoopB_all_ok (ok : Nat → Bool) (k : PoolKind) :
    ∀ n i, (∀ j, j < n → ok (i + j) = true) →
      poolLoopB ok k i n =
        ((List.range' i n).map (Action.createPool k),
         (List.range' i n).map (Action.deletePool k), none) := by
  intro n
  induction n with
  | zero => intro i _; rfl
  | succ m ih =>
    intro i hok
    rw [poolLoopB, if_pos (by simpa using hok 0 (by omega))]
    rw [ih (i + 1) (fun j hj => by
      have h2 := hok (j + 1) (by omega)
      have h3 : i + (j + 1) = i + 1 + j := by omega
      rw [h3] at h2
      exact h2)]
    simp [List.range'_succ]

/-- The pool loop of the cleanup-stack command, when the create numbered f
(0-based) fails after successes, creates pools 0..f and stacks deletes for
0..f-1, reporting failure at f. -/
theorem poolLoopB_fail (ok : Nat → Bool) (k : PoolKind) :
    ∀ n i f, f < n → (∀ j, j < f → ok (i + j) = true) → ok (i + f) = false →
      poolLoopB ok k i n =
        ((List.range' i (f + 1)).map (Action.createPool k),
         (List.range' i f).map (Action.deletePool k), some (i + f)) := by
  intro n
  induction n with
  | zero => intro i f hf; omega
  | succ m ih =>
    intro i f hf hok hfail
    rcases Nat.eq_zero_or_pos f with rfl | hfpos
    · rw [poolLoopB, if_neg (by simpa using hfail)]
      simp [List.range'_succ]
    · obtain ⟨g, rfl⟩ : ∃ g, f = g + 1 := ⟨f - 1, by omega⟩
      rw [poolLoopB, if_pos (by simpa using hok 0 (by omega))]
      rw [ih (i + 1) g (by omega)
        (fun j hj => by
          have h2 := hok (j + 1) (by omega)
          have h3 : i + (j + 1) = i + 1 + j := by omega
          rw [h3] at h2
          exact h2)
        (by
          have : i + 1 + g = i + (g + 1) := by omega
          rw [this]
          exact hfail)]
      have hidx : i + 1 + g = i + (g + 1) := by omega
      simp [List.range'_succ, hidx]

@[simp]
theorem isPoolDelete_createCluster : isPoolDelete Action.createCluster = false := rfl

@[simp]
theorem isPoolDelete_deleteCluster : isPoolDelete Action.deleteCluster = false := rfl

@[simp]
theorem isPoolDelete_createPool (k : PoolKind) (i : Nat) :
    isPoolDelete (Action.createPool k i) = false := rfl

@[simp]
theorem isPoolDelete_deletePool (k : PoolKind) (i : Nat) :
    isPoolDelete (Action.deletePool k i) = true := rfl

@[simp]
theorem isPoolCreate_createCluster : isPoolCreate Action.createCluster = false := rfl

@[simp]
theorem isPoolCreate_deleteCluster : isPoolCreate Action.deleteCluster = false := rfl

@[simp]
theorem isPoolCreate_createPool (k : PoolKind) (i : Nat) :
    isPoolCreate (Action.createPool k i) = true := rfl

@[simp]
theorem isPoolCreate_deletePool (k : PoolKind) (i : Nat) :
    isPoolCreate (Action.deletePool k i) = false := rfl

@[simp]
theorem isPoolDelete_deleteCloudspaceCall (o n : String) :
    isPoolDelete (Action.deleteCloudspaceCall o n) = false := rfl

@[simp]
theorem isPoolCreate_deleteCloudspaceCall (o n : String) :
    isPoolCreate (Action.deleteCloudspaceCall o n) = false := rfl

/-- Creation calls are not deletions. -/
theorem poolDeletes_creates_nil (k : PoolKind) (i n : Nat) :
    poolDeletes ((List.range' i n).map (Action.createPool k)) = [] := by
  unfold poolDeletes
  rw [List.filter_eq_nil_iff]
  intro a ha
  obtain ⟨j, _, rfl⟩ := List.mem_map.mp ha
  simp [isPoolDelete]

/-- Deletion calls pass the deletion filter unchanged. -/
theorem poolDeletes_deletes_self (k : PoolKind) (i n : Nat) :
    poolDeletes ((List.range' i n).map (Action.deletePool k)) =
      (List.range' i n).map (Action.deletePool k) := by
  unfold poolDeletes
  rw [List.filter_eq_self]
  intro a ha
  obtain ⟨j, _, rfl⟩ := List.mem_map.mp ha
  simp [isPoolDelete]

/-- Creation calls pass the creation filter unchanged. -/
theorem poolCreates_creates_self (k : PoolKind) (i n : Nat) :
    poolCreates ((List.range' i n).map (Action.createPool k)) =
      (List.range' i n).map (Action.createPool k) := by
  unfold poolCreates
  rw [List.filter_eq_self]
  intro a ha
  obtain ⟨j, _, rfl⟩ := List.mem_map.mp ha
  simp [isPoolCreate]

/-- Deletion calls are not creations. -/
theorem poolCreates_deletes_nil (k : PoolKind) (i n : Nat) :
    poolCreates ((List.range' i n).map (Action.deletePool k)) = [] := by
  unfold poolCreates
  rw [List.filter_eq_nil_iff]
  intro a ha
  obtain ⟨j, _, rfl⟩ := List.mem_map.mp ha
  simp [isPoolCreate]

/-- The Go string order is irreflexive. -/
theorem goStrLtL_irrefl (l : List Char) : goStrLtL l l = false := by
  induction l with
  | nil => rfl
  | cons a as ih => simp [goStrLtL, ih]

/-- C10: in the wizard server-class step, the minimum bid reported for a
class is never less (Go string order) than the current market price of the
class: whenever the listed minimum bid compares less than the market price,
the market price replaces it before display and return. -/
theorem c10_min_bid_at_least_market (sc : ServerClassInfo) :
    goStringLess (adjustMinBid sc).MinBidPricePerHour sc.CurrentMarketPricePerHour = false ∧
    (adjustMinBid sc).CurrentMarketPricePerHour = sc.CurrentMarketPricePerHour ∧
    (goStringLess sc.MinBidPricePerHour sc.CurrentMarketPricePerHour = true →
      (adjustMinBid sc).MinBidPricePerHour = sc.CurrentMarketPricePerHour) ∧
    (goStringLess sc.MinBidPricePerHour sc.CurrentMarketPricePerHour = false →
      adjustMinBid sc = sc) := by
  have hirr := goStrLtL_irrefl sc.CurrentMarketPricePerHour.data
  unfold adjustMinBid goStringLess
  by_cases hlt : goStrLtL sc.MinBidPricePerHour.data sc.CurrentMarketPricePerHour.data = true
  · simp [hlt, hirr]
  · simp only [Bool.not_eq_true] at hlt
    simp [hlt]

/-- Concrete instance of the C10 theorem: a class whose listed minimum bid
is below the market price is reported at the market price. -/
theorem c10_min_bid_at_least_market_witness :
    (adjustMinBid ⟨"gp.vs1.medium-iad", "4", "8GB", "0.012", "0.008", "0.5"⟩).MinBidPricePerHour
      = "0.012" :=
  (c10_min_bid_at_least_market ⟨"gp.vs1.medium-iad", "4", "8GB", "0.012", "0.008", "0.5"⟩).2.2.1
    (by decide)

/-- C8: the create command selects the wizard exactly when no flag at all was
set; a nonempty config path selects the file source regardless of other
flags; otherwise any set flag selects the flags source. -/
theorem c8_mode_selection (fs : FlagVisitState) (h : FlagStateCoherent fs) :
    (selectAcquireMode fs = .wizard ↔ fs.changedFlags = []) ∧
    (fs.configValue ≠ "" → selectAcquireMode fs = .file) ∧
    (fs.changedFlags ≠ [] → selectAcquireMode fs ≠ .wizard) ∧
    (fs.configValue = "" → fs.changedFlags ≠ [] → selectAcquireMode fs = .flags) := by
  unfold selectAcquireMode isInteractiveMode
  by_cases hc : fs.configValue = ""
  · by_cases he : fs.changedFlags = []
    · simp [hc, he, List.isEmpty_iff]
    · simp [hc, he, List.isEmpty_iff]
  · have hmem : "config" ∈ fs.changedFlags := h hc
    have hne : fs.changedFlags ≠ [] := by
      intro hnil
      rw [hnil] at hmem
      exact absurd hmem (List.not_mem_nil _)
    simp [hc, hne, List.isEmpty_iff]

/-- Concrete instance of the C8 theorem: with only the name flag set the
flags source is selected, not the wizard. -/
theorem c8_mode_selection_witness :
    selectAcquireMode ⟨"", ["name"]⟩ = AcquireMode.flags :=
  (c8_mode_selection ⟨"", ["name"]⟩ (by intro h; simp at h)).2.2.2 rfl (by simp)

/-- C7: when both a config path and the name flag are supplied, the create
command of src/cmd/cloudspaces.go never proceeds to creation, and, whenever
org and region resolve, it fails precisely with the conflicting-source
error. -/
theorem c7_conflicting_sources (fl : NamedCreateFlags) (cfg : Option CLIEssentials)
    (hc : fl.config ≠ "") (hn : fl.name ≠ "") :
    (checkCreateSourcesNamed fl cfg).isOk = false ∧
    (resolvedOrg fl cfg ≠ "" → resolvedRegion fl cfg ≠ "" →
      checkCreateSourcesNamed fl cfg = .error .conflictingSource) := by
  unfold checkCreateSourcesNamed
  by_cases ho : resolvedOrg fl cfg = ""
  · simp [ho, Except.isOk, Except.toBool]
  · by_cases hr : resolvedRegion fl cfg = ""
    · simp [ho, hr, Except.isOk, Except.toBool]
    · simp [ho, hr, hc, hn, Except.isOk, Except.toBool]

/-- Concrete instance of the C7 theorem: config plus name with resolvable org
and region fails with the conflicting-source error. -/
theorem c7_conflicting_sources_witness :
    checkCreateSourcesNamed ⟨"demo", "myorg", "us-east-iad-1", "cfg.yaml"⟩ none
      = .error .conflictingSource :=
  (c7_conflicting_sources ⟨"demo", "myorg", "us-east-iad-1", "cfg.yaml"⟩ none
      (by decide) (by decide)).2 (by decide) (by decide)

/-- Value of digitCh on an actual digit. -/
theorem digitCh_toNat (d : Nat) (h : d < 10) : (digitCh d).toNat = 48 + d := by
  interval_cases d <;> decide

/-- Every character produced by the digit expansion is a digit character. -/
theorem natDigsAux_chars (fuel : Nat) :
    ∀ n c, c ∈ natDigsAux fuel n → ∃ d, d < 10 ∧ c = digitCh d := by
  induction fuel with
  | zero => intro n c hc; exact absurd hc (by simp [natDigsAux])
  | succ f ih =>
    intro n c hc
    rcases n with _ | m
    · exact absurd hc (by simp [natDigsAux])
    · rw [natDigsAux] at hc
      rcases List.mem_cons.mp hc with h1 | h2
      · exact ⟨(m + 1) % 10, Nat.mod_lt _ (by norm_num), h1⟩
      · exact ih _ c h2

/-- No digit character is the dot. -/
theorem digitCh_ne_dot (d : Nat) (h : d < 10) : digitCh d ≠ '.' := by
  intro he
  have h1 := digitCh_toNat d h
  rw [he] at h1
  have h2 : ('.' : Char).toNat = 46 := by decide
  rw [h2] at h1
  omega

/-- A nonzero digit character is not the zero character. -/
theorem digitCh_ne_zeroCh (d : Nat) (h : d < 10) (hd : d ≠ 0) : digitCh d ≠ '0' := by
  intro he
  have h1 := digitCh_toNat d h
  rw [he] at h1
  have h2 : ('0' : Char).toNat = 48 := by decide
  rw [h2] at h1
  omega

/-- The decimal string of a natural number contains no dot. -/
theorem natStr_no_dot (n : Nat) : '.' ∉ (natStr n).data := by
  unfold natStr
  by_cases h : n = 0
  · rw [if_pos h]
    decide
  · rw [if_neg h]
    intro hmem
    rw [List.mem_reverse] at hmem
    obtain ⟨d, hd, he⟩ := natDigsAux_chars n n '.' hmem
    exact digitCh_ne_dot d hd he.symm

/-- Head digit of the expansion of a positive number. -/
theorem natDigsLE_head (n : Nat) (h : n ≠ 0) :
    (natDigsLE n).head? = some (digitCh (n % 10)) := by
  rcases n with _ | m
  · exact absurd rfl h
  · rfl

/-- With enough fuel the canonical form either has no fractional digits or
a mantissa not divisible by ten. -/
theorem canonAux_spec (fuel : Nat) :
    ∀ d : GoDec, d.exp ≤ fuel →
      (canonAux fuel d).exp = 0 ∨ (canonAux fuel d).mant % 10 ≠ 0 := by
  induction fuel with
  | zero =>
    intro d hle
    have he : d.exp = 0 := Nat.le_zero.mp hle
    exact Or.inl (by simpa [canonAux] using he)
  | succ f ih =>
    intro d hle
    by_cases he : d.exp = 0
    · exact Or.inl (by simp [canonAux, he])
    · by_cases hm : d.mant % 10 = 0
      · rw [canonAux, if_neg he, if_pos hm]
        exact ih _ (by simp only; omega)
      · exact Or.inr (by simp [canonAux, he, hm])

/-- The canonical form has no fractional digits or ends in a nonzero digit. -/
theorem canonGoDec_spec (d : GoDec) :
    (canonGoDec d).exp = 0 ∨ (canonGoDec d).mant % 10 ≠ 0 :=
  canonAux_spec d.exp d le_rfl

/-- Head of a nonempty dropWhile result fails the predicate. -/
theorem dropWhile_head_false {α : Type} (p : α → Bool) (l : List α) (x : α) (xs : List α)
    (h : l.dropWhile p = x :: xs) : p x = false := by
  induction l with
  | nil => exact absurd h (by simp)
  | cons a as ih =>
    rw [List.dropWhile_cons] at h
    split at h
    · exact ih h
    · next hpa =>
      cases h
      simpa using hpa

/-- Characters of a list parsed by the decimal body are digits or the dot. -/
theorem parseDecBody_chars (neg : Bool) (l : List Char) (d : GoDec)
    (h : parseDecBody neg l = some d) :
    ∀ c ∈ l, isDigitCh c = true ∨ c = '.' := by
  intro c hc
  rw [← List.takeWhile_append_dropWhile isNotDot l] at hc
  rcases hd : l.dropWhile isNotDot with _ | ⟨x, fp⟩
  · rw [hd] at hc
    simp only [parseDecBody, hd] at h
    split at h
    · next hcond =>
      simp only [Bool.and_eq_true] at hcond
      rcases List.mem_append.mp hc with h1 | h2
      · exact Or.inl (List.all_eq_true.mp hcond.2 c h1)
      · exact absurd h2 (List.not_mem_nil c)
    · exact absurd h (by simp)
  · rw [hd] at hc
    simp only [parseDecBody, hd] at h
    split at h
    · next hcond =>
      simp only [Bool.and_eq_true] at hcond
      rcases List.mem_append.mp hc with h1 | h2
      · exact Or.inl (List.all_eq_true.mp hcond.1.1.1 c h1)
      · rcases List.mem_cons.mp h2 with rfl | h3
        · right
          have hx := dropWhile_head_false isNotDot l c fp hd
          simpa [isNotDot] using hx
        · exact Or.inl (List.all_eq_true.mp hcond.1.1.2 c h3)
    · exact absurd h (by simp)

/-- Characters of a parsed decimal literal are digits, the dot, or a sign. -/
theorem goParseFloatDec_chars (s : String) (d : GoDec) (h : goParseFloatDec s = some d) :
    ∀ c ∈ s.data, isDigitCh c = true ∨ c = '.' ∨ c = '+' ∨ c = '-' := by
  intro c hc
  unfold goParseFloatDec at h
  rcases hsd : s.data with _ | ⟨a, rest⟩
  · rw [hsd] at hc; exact absurd hc (List.not_mem_nil c)
  · rw [hsd] at h hc
    simp only [goParseFloatDecL] at h
    by_cases ha1 : a = '-'
    · rw [if_pos ha1] at h
      rcases List.mem_cons.mp hc with rfl | hcr
      · exact Or.inr (Or.inr (Or.inr ha1))
      · rcases parseDecBody_chars _ _ _ h c hcr with h1 | h2
        · exact Or.inl h1
        · exact Or.inr (Or.inl h2)
    · rw [if_neg ha1] at h
      by_cases ha2 : a = '+'
      · rw [if_pos ha2] at h
        rcases List.mem_cons.mp hc with rfl | hcr
        · exact Or.inr (Or.inr (Or.inl ha2))
        · rcases parseDecBody_chars _ _ _ h c hcr with h1 | h2
          · exact Or.inl h1
          · exact Or.inr (Or.inl h2)
      · rw [if_neg ha2] at h
        rcases parseDecBody_chars _ _ _ h c hc with h1 | h2
        · exact Or.inl h1
        · exact Or.inr (Or.inl h2)

/-- Code point bounds of the characters of a decimal literal. -/
theorem goodChar_toNat (c : Char) (h : isDigitCh c = true ∨ c = '.' ∨ c = '+' ∨ c = '-') :
    43 ≤ c.toNat ∧ c.toNat ≤ 57 := by
  rcases h with h | h | h | h
  · simp only [isDigitCh, Bool.and_eq_true, decide_eq_true_eq] at h
    omega
  · subst h; exact ⟨by decide, by decide⟩
  · subst h; exact ⟨by decide, by decide⟩
  · subst h; exact ⟨by decide, by decide⟩

/-- A character of a decimal literal is not the dollar sign. -/
theorem goodChar_ne_dollar (c : Char)
    (h : isDigitCh c = true ∨ c = '.' ∨ c = '+' ∨ c = '-') : c ≠ '$' := by
  intro he
  have hb := goodChar_toNat c h
  rw [he] at hb
  exact absurd hb (by decide)

/-- A whitespace character has a code point below 33. -/
theorem isGoSpace_toNat (c : Char) (h : isGoSpace c = true) : c.toNat < 33 := by
  simp only [isGoSpace, Bool.or_eq_true, decide_eq_true_eq] at h
  rcases h with ((((ha | hb) | hy) | h4) | h5) | h6
  · rw [ha]; decide
  · rw [hb]; decide
  · rw [hy]; decide
  · rw [h4]; decide
  · omega
  · omega

/-- A character of a decimal literal is not whitespace. -/
theorem goodChar_not_space (c : Char)
    (h : isDigitCh c = true ∨ c = '.' ∨ c = '+' ∨ c = '-') : isGoSpace c = false := by
  by_cases hs : isGoSpace c = true
  · have h1 := isGoSpace_toNat c hs
    have h2 := goodChar_toNat c h
    omega
  · simpa using hs

/-- Dropping while a predicate fails everywhere is the identity. -/
theorem dropWhile_eq_self_of_all {α : Type} (p : α → Bool) (l : List α)
    (h : ∀ c ∈ l, p c = false) : l.dropWhile p = l := by
  cases l with
  | nil => rfl
  | cons a as =>
    rw [List.dropWhile_cons, if_neg]
    rw [h a (by simp)]
    simp

/-- TrimSpace is the identity on a string with no whitespace. -/
theorem goTrimSpace_eq_self (s : String) (h : ∀ c ∈ s.data, isGoSpace c = false) :
    goTrimSpace s = s := by
  unfold goTrimSpace
  rw [dropWhile_eq_self_of_all _ _ h,
      dropWhile_eq_self_of_all _ _ (fun c hc => h c (List.mem_reverse.mp hc)),
      List.reverse_reverse]

/-- getBidPrice succeeds exactly on a positive extracted price. -/
theorem getBidPrice_isOk_iff (s : String) :
    (getBidPrice s).isOk = true ↔
      ∃ p : GoDec, extractPrice s = some p ∧ decLeZero p = false := by
  by_cases h0 : s = ""
  · subst h0
    constructor
    · intro h
      exact absurd h (by decide)
    · rintro ⟨p, hp, _⟩
      have hnone : extractPrice "" = none := rfl
      rw [hnone] at hp
      exact absurd hp (by simp)
  · by_cases h1 : goTrimSpace (removeDollar s) = ""
    · have hgb : getBidPrice s = .error .noValidNumber := by
        simp only [getBidPrice]
        rw [if_neg h0, if_pos h1]
      have hex : extractPrice s = none := by
        simp only [extractPrice]
        rw [h1]
        rfl
      rw [hgb, hex]
      constructor
      · intro h
        simp [Except.isOk, Except.toBool] at h
      · rintro ⟨p, hp, _⟩
        exact absurd hp (by simp)
    · simp only [getBidPrice, extractPrice]
      rw [if_neg h0, if_neg h1]
      rcases hp1 : goParseFloatDec (goTrimSpace (removeDollar s)) with _ | p
      · simp only [hp1]
        by_cases hcl : (cleanScanAux false (goTrimSpace (removeDollar s)).data).isEmpty = true
        · rw [if_pos hcl]
          have hclnil : cleanScanAux false (goTrimSpace (removeDollar s)).data = [] :=
            List.isEmpty_iff.mp hcl
          rw [hclnil]
          simp [Except.isOk, Except.toBool,
            show goParseFloatDec (String.mk []) = none from rfl]
        · rw [if_neg hcl]
          rcases hp2 : goParseFloatDec
              (String.mk (cleanScanAux false (goTrimSpace (removeDollar s)).data)) with _ | q
          · simp only [hp2]
            simp [Except.isOk, Except.toBool]
          · simp only [hp2]
            by_cases hz : decLeZero q = true
            · rw [if_pos hz]
              simp [Except.isOk, Except.toBool, hz]
            · rw [if_neg hz]
              simp only [Bool.not_eq_true] at hz
              simp [Except.isOk, Except.toBool, hz]
      · simp only [hp1]
        by_cases hz : decLeZero p = true
        · rw [if_pos hz]
          simp [Except.isOk, Except.toBool, hz]
        · rw [if_neg hz]
          simp only [Bool.not_eq_true] at hz
          simp [Except.isOk, Except.toBool, hz]

/-- C5: getBidPrice fails exactly when no numeric value can be extracted by
its two-stage extraction or when the extracted value is not positive; and
every directly parsable positive price succeeds with a leading currency
symbol, which is stripped together with whitespace. -/
theorem c5_invalid_price_exactly (s : String) :
    ((getBidPrice s).isOk = true ↔
      ∃ p : GoDec, extractPrice s = some p ∧ p.neg = false ∧ 0 < p.mant) ∧
    (∀ p : GoDec, goParseFloatDec s = some p → p.neg = false → 0 < p.mant →
      (getBidPrice ("$" ++ s)).isOk = true) := by
  have hzero : ∀ p : GoDec, decLeZero p = false ↔ p.neg = false ∧ 0 < p.mant := by
    intro p
    simp only [decLeZero, Bool.or_eq_false_iff, beq_eq_false_iff_ne]
    constructor
    · rintro ⟨ha, hb⟩
      exact ⟨ha, Nat.pos_of_ne_zero hb⟩
    · rintro ⟨ha, hb⟩
      exact ⟨ha, by omega⟩
  constructor
  · rw [getBidPrice_isOk_iff]
    constructor
    · rintro ⟨p, hp, hz⟩
      exact ⟨p, hp, (hzero p).mp hz⟩
    · rintro ⟨p, hp, hneg, hmant⟩
      exact ⟨p, hp, (hzero p).mpr ⟨hneg, hmant⟩⟩
  · intro p hp hneg hmant
    have hchars := goParseFloatDec_chars s p hp
    have hnospace : ∀ c ∈ s.data, isGoSpace c = false :=
      fun c hc => goodChar_not_space c (hchars c hc)
    have hnodollar : ∀ c ∈ s.data, c ≠ '$' :=
      fun c hc => goodChar_ne_dollar c (hchars c hc)
    have hdata : ("$" ++ s).data = '$' :: s.data := by
      rw [String.data_append]
      rfl
    have hrd : removeDollar ("$" ++ s) = s := by
      unfold removeDollar
      rw [hdata, List.filter_cons, if_neg (by simp),
        List.filter_eq_self.mpr (fun a ha => by simpa using hnodollar a ha)]
    rw [getBidPrice_isOk_iff]
    refine ⟨p, ?_, by simp only [decLeZero, hneg, Bool.false_or, beq_eq_false_iff_ne]; omega⟩
    simp only [extractPrice, hrd, goTrimSpace_eq_self s hnospace, hp]

/-- Concrete instance of the C5 theorem: the dollar-prefixed price 0.08 is
accepted. -/
theorem c5_invalid_price_exactly_witness : (getBidPrice ("$" ++ "0.08")).isOk = true :=
  (c5_invalid_price_exactly "0.08").2 ⟨false, 8, 2⟩ rfl rfl (by norm_num)

/-- Last character of the zero-padded fraction of a number not divisible by
ten is its last digit. -/
theorem padFrac_getLast (w r : Nat) (hr : r ≠ 0) :
    (padFrac w r).data.getLast? = some (digitCh (r % 10)) := by
  have hne : (natDigsLE r).reverse ≠ [] := by
    intro h0
    have h1 : natDigsLE r = [] := by simpa using h0
    have hh := natDigsLE_head r hr
    rw [h1] at hh
    exact absurd hh (by simp)
  show (List.replicate (w - (natDigsLE r).length) '0' ++ (natDigsLE r).reverse).getLast?
      = some (digitCh (r % 10))
  rw [List.getLast?_append_of_ne_nil _ hne, List.getLast?_reverse, natDigsLE_head r hr]

/-- The zero-padded fraction of a nonzero number is nonempty. -/
theorem padFrac_ne_nil (w r : Nat) (hr : r ≠ 0) : (padFrac w r).data ≠ [] := by
  intro h0
  have h1 := padFrac_getLast w r hr
  rw [h0] at h1
  exact absurd h1 (by simp)

/-- The percent-g model never prints a trailing zero after the decimal
point: when its output contains a dot, the last character is the last digit
of the canonical mantissa, which is not zero. -/
theorem sprintfG_no_trailing_zero (d : GoDec) (hdot : '.' ∈ (sprintfG d).data) :
    (sprintfG d).data.getLast? ≠ some '0' := by
  by_cases he : (canonGoDec d).exp = 0
  · exfalso
    simp only [sprintfG] at hdot
    rw [if_pos he, String.data_append] at hdot
    rcases List.mem_append.mp hdot with h1 | h2
    · by_cases hn : ((canonGoDec d).neg && (canonGoDec d).mant != 0) = true
      · rw [if_pos hn] at h1
        exact absurd h1 (by decide)
      · rw [if_neg hn] at h1
        exact absurd h1 (by decide)
    · exact natStr_no_dot _ h2
  · have hm : (canonGoDec d).mant % 10 ≠ 0 := (canonGoDec_spec d).resolve_left he
    have hr : (canonGoDec d).mant % 10 ^ (canonGoDec d).exp % 10 = (canonGoDec d).mant % 10 :=
      Nat.mod_mod_of_dvd _ (dvd_pow_self 10 he)
    have hrne : (canonGoDec d).mant % 10 ^ (canonGoDec d).exp ≠ 0 := by
      intro h0
      rw [h0] at hr
      exact hm (by omega)
    simp only [sprintfG]
    rw [if_neg he, String.data_append, String.data_append, String.data_append]
    rw [List.getLast?_append_of_ne_nil _
      (List.append_ne_nil_of_right_ne_nil _ (padFrac_ne_nil _ _ hrne))]
    rw [List.getLast?_append_of_ne_nil _ (padFrac_ne_nil _ _ hrne)]
    rw [padFrac_getLast _ _ hrne]
    intro hcontra
    have h3 : digitCh ((canonGoDec d).mant % 10 ^ (canonGoDec d).exp % 10) = '0' := by
      simpa using hcontra
    rw [hr] at h3
    exact digitCh_ne_zeroCh _ (Nat.mod_lt _ (by norm_num)) hm h3

/-- Every successful getBidPrice result is a percent-g rendering. -/
theorem getBidPrice_ok_shape (t s : String) (h : getBidPrice t = .ok s) :
    ∃ p : GoDec, s = sprintfG p := by
  simp only [getBidPrice] at h
  split at h
  · exact absurd h (by simp)
  · split at h
    · exact absurd h (by simp)
    · split at h
      · exact absurd h (by simp)
      · next price hmatch =>
        split at h
        · exact absurd h (by simp)
        · refine ⟨price, ?_⟩
          injection h with h2
          exact h2.symm

/-- C2 amended: the bid-price normalization applied immediately before the
remote spot-pool creation call in the final creation path is validateBidPrice
followed by getBidPrice, and the percent-g formatting of getBidPrice runs
last: every accepted price is returned in shortest decimal form with
trailing fractional zeros stripped (input 0.08 yields 0.08, not 0.080), not
in the always-three-digit form — which validateBidPrice alone would give. -/
theorem c2_final_path_zero_stripped (raw s : String) (h : finalPathBidPrice raw = .ok s) :
    (∃ p : GoDec, s = sprintfG p) ∧ ('.' ∈ s.data → s.data.getLast? ≠ some '0') := by
  unfold finalPathBidPrice at h
  split at h
  · exact absurd h (by simp)
  · next t hvb =>
    obtain ⟨p, hp⟩ := getBidPrice_ok_shape t s h
    subst hp
    exact ⟨⟨p, rfl⟩, sprintfG_no_trailing_zero p⟩

/-- C2 counterexample: on input 0.08 the normalization in the final creation
path returns 0.08 — two digits after the decimal point, the trailing-zero-
stripped form — even though validateBidPrice alone returns 0.080. -/
theorem c2_counterexample :
    validateBidPrice "0.08" = .ok "0.080" ∧
    finalPathBidPrice "0.08" = .ok "0.08" ∧
    (("0.08".data.dropWhile (fun c => c ≠ '.')).drop 1).length = 2 := by
  refine ⟨rfl, rfl, by decide⟩

/-- Concrete instance of the C2 amended theorem at input 0.08. -/
theorem c2_final_path_zero_stripped_witness :
    (∃ p : GoDec, "0.08" = sprintfG p) ∧
      ('.' ∈ "0.08".data → "0.08".data.getLast? ≠ some '0') :=
  c2_final_path_zero_stripped "0.08" "0.08" rfl

/-- C3 counterexample: validation of an empty-pool request does not fail for
the wizard source — validateCreateParams returns no error in interactive
mode — while the very same request fails with the pool-required error in
non-interactive mode. -/
theorem c3_counterexample :
    noPoolParams.SpotNodePools = [] ∧ noPoolParams.OnDemandNodePools = [] ∧
    (validateCreateParams noPoolParams true).1 = none ∧
    (validateCreateParams noPoolParams false).1 = some .poolRequired := by
  refine ⟨rfl, rfl, rfl, ?_⟩
  decide

/-- C3 amended: for the non-interactive sources (file and flags) an
empty-pool request always fails validation, and it fails precisely with the
pool-required error whenever the name and region checks pass; in interactive
mode (wizard source) validateCreateParams skips every check and reports no
error. -/
theorem c3_empty_pools_rejected_noninteractive (params : CreateCloudspaceParams)
    (hs : params.SpotNodePools = []) (ho : params.OnDemandNodePools = []) :
    (validateCreateParams params false).1.isSome = true ∧
    (params.Name ≠ "" → isValidRegion params.Region = true →
      (validateCreateParams params false).1 = some .poolRequired) ∧
    (validateCreateParams params true).1 = none := by
  unfold validateCreateParams
  refine ?_
  by_cases hn : params.Name = ""
  · simp [hn]
  · by_cases hr : params.Region = ""
    · have hv0 : isValidRegion "" = false := by decide
      simp [hn, hr, hv0]
    · by_cases hv : isValidRegion params.Region = true
      · simp [hn, hr, hv, hs, ho]
      · simp only [Bool.not_eq_true] at hv
        simp [hn, hr, hv]

/-- Concrete instance of the C3 amended theorem. -/
theorem c3_empty_pools_rejected_noninteractive_witness :
    (validateCreateParams noPoolParams false).1 = some .poolRequired :=
  (c3_empty_pools_rejected_noninteractive noPoolParams rfl rfl).2.1 (by decide) (by decide)

/-- Success of the on-demand loop forces a positive desired count on every
on-demand pool. -/
theorem validateOnDemandPools_desired_pos (l : List OnDemandNodePool)
    (h : (validateOnDemandPools l).1 = none) :
    ∀ p ∈ l, 1 ≤ p.Desired := by
  induction l with
  | nil => intro p hp; exact absurd hp (List.not_mem_nil p)
  | cons q rest ih =>
    intro p hp
    by_cases hq : q.Desired ≤ 0
    · rw [validateOnDemandPools, if_pos hq] at h
      exact absurd h (by simp)
    · rw [validateOnDemandPools, if_neg hq] at h
      rcases List.mem_cons.mp hp with hpq | hpr
      · subst hpq; omega
      · exact ih h p hpr

/-- The on-demand loop never changes the list. -/
theorem validateOnDemandPools_preserves (l : List OnDemandNodePool) :
    (validateOnDemandPools l).2 = l := by
  induction l with
  | nil => rfl
  | cons q rest ih =>
    by_cases hq : q.Desired ≤ 0
    · rw [validateOnDemandPools, if_pos hq]
    · rw [validateOnDemandPools, if_neg hq]
      simpa using ih

/-- C6 amended: validateCreateParams enforces a positive desired count for
the on-demand pools only — a request it accepts has desired at least 1 on
every on-demand pool (so any on-demand pool below 1 is rejected before any
remote mutation).  The desired count of spot pools is not checked, as the
C6 counterexample shows. -/
theorem c6_on_demand_desired_validated (params : CreateCloudspaceParams)
    (h : (validateCreateParams params false).1 = none) :
    ∀ p ∈ params.OnDemandNodePools, 1 ≤ p.Desired := by
  unfold validateCreateParams at h
  by_cases hn : params.Name = ""
  · rw [if_neg (by simp), if_pos hn] at h; exact absurd h (by simp)
  · by_cases hr : params.Region = ""
    · rw [if_neg (by simp), if_neg hn, if_pos hr] at h; exact absurd h (by simp)
    · by_cases hv : (!isValidRegion params.Region) = true
      · rw [if_neg (by simp), if_neg hn, if_neg hr, if_pos hv] at h
        exact absurd h (by simp)
      · by_cases he : (params.SpotNodePools.isEmpty && params.OnDemandNodePools.isEmpty) = true
        · rw [if_neg (by simp), if_neg hn, if_neg hr, if_neg hv, if_pos he] at h
          exact absurd h (by simp)
        · rw [if_neg (by simp), if_neg hn, if_neg hr, if_neg hv, if_neg he] at h
          rcases hs : (validateSpotPools params.SpotNodePools).1 with _ | e
          · simp only [hs] at h
            exact validateOnDemandPools_desired_pos _ h
          · simp only [hs] at h
            exact absurd h (by simp)

/-- C6 counterexample: a spot pool with desired count 0 — below 1 — passes
validateCreateParams, so the validator does not enforce a positive desired
count for spot pools. -/
theorem c6_counterexample :
    (zeroDesiredSpotParams.SpotNodePools.map SpotNodePool.Desired) = [0] ∧
    (validateCreateParams zeroDesiredSpotParams false).1 = none := by
  refine ⟨rfl, ?_⟩
  decide

/-- The spot-pool loop touches nothing but the bid prices. -/
theorem validateSpotPools_clearBid (l : List SpotNodePool) :
    (validateSpotPools l).2.map clearBid = l.map clearBid := by
  induction l with
  | nil => rfl
  | cons q rest ih =>
    by_cases hq : q.BidPrice = ""
    · rw [validateSpotPools, if_pos hq]
    · rw [validateSpotPools, if_neg hq]
      rcases hb : validateBidPrice q.BidPrice with e | nb
      · rfl
      · simpa [clearBid] using ih

/-- On a successful pass the spot-pool loop rewrites every bid price to its
canonical form. -/
theorem validateSpotPools_ok_canon (l : List SpotNodePool)
    (h : (validateSpotPools l).1 = none) :
    (validateSpotPools l).2 = l.map canonSpot := by
  induction l with
  | nil => rfl
  | cons q rest ih =>
    by_cases hq : q.BidPrice = ""
    · rw [validateSpotPools, if_pos hq] at h
      exact absurd h (by simp)
    · rcases hb : validateBidPrice q.BidPrice with e | nb
      · rw [validateSpotPools, if_neg hq, hb] at h
        exact absurd h (by simp)
      · rw [validateSpotPools, if_neg hq, hb] at h ⊢
        simp only [List.map]
        rw [ih h]
        simp [canonSpot, hb]

/-- C9 amended: validateCreateParams preserves every field of the request
except the spot-pool bid prices — the name, org, region, version, webhook,
CNI, config path, the on-demand pools, and every non-price field of every
spot pool are returned unchanged, and in interactive mode the whole record
is unchanged — but on a successful non-interactive pass each spot-pool bid
price is rewritten in place to its canonical validateBidPrice form, so
validation is not a pure function of the request. -/
theorem c9_validate_mutates_only_bid_prices (params : CreateCloudspaceParams)
    (interactive : Bool) :
    (validateCreateParams params interactive).2.Name = params.Name ∧
    (validateCreateParams params interactive).2.Org = params.Org ∧
    (validateCreateParams params interactive).2.Region = params.Region ∧
    (validateCreateParams params interactive).2.KubernetesVersion = params.KubernetesVersion ∧
    (validateCreateParams params interactive).2.PreemptionWebhookURL
      = params.PreemptionWebhookURL ∧
    (validateCreateParams params interactive).2.CNI = params.CNI ∧
    (validateCreateParams params interactive).2.ConfigPath = params.ConfigPath ∧
    (validateCreateParams params interactive).2.OnDemandNodePools = params.OnDemandNodePools ∧
    (validateCreateParams params interactive).2.SpotNodePools.map clearBid
      = params.SpotNodePools.map clearBid ∧
    (interactive = true → (validateCreateParams params interactive).2 = params) ∧
    ((validateCreateParams params interactive).1 = none → interactive = false →
      (validateCreateParams params interactive).2.SpotNodePools
        = params.SpotNodePools.map canonSpot) := by
  rcases interactive with _ | _
  · unfold validateCreateParams
    by_cases hn : params.Name = ""
    · simp [hn]
    · by_cases hr : params.Region = ""
      · simp [hn, hr]
      · by_cases hv : (!isValidRegion params.Region) = true
        · simp [hn, hr, hv]
        · by_cases he : (params.SpotNodePools.isEmpty && params.OnDemandNodePools.isEmpty) = true
          · simp [hn, hr, hv, he]
          · rw [if_neg (by simp), if_neg hn, if_neg hr, if_neg hv, if_neg he]
            rcases hs : (validateSpotPools params.SpotNodePools).1 with _ | e
            · simp only [hs]
              refine ⟨trivial, trivial, trivial, trivial, trivial, trivial, trivial, ?_, ?_, ?_, ?_⟩
              · exact validateOnDemandPools_preserves _
              · exact validateSpotPools_clearBid _
              · intro hcontra; exact absurd hcontra (by simp)
              · intro _ _; exact validateSpotPools_ok_canon _ hs
            · simp only [hs]
              refine ⟨trivial, trivial, trivial, trivial, trivial, trivial, trivial, trivial, ?_, ?_, ?_⟩
              · exact validateSpotPools_clearBid _
              · intro hcontra; exact absurd hcontra (by simp)
              · intro hcontra; exact absurd hcontra (by simp)
  · simp [validateCreateParams]

/-- C9 counterexample: a request whose spot pool carries the bid price 0.08
comes back from a successful, ok-returning validateCreateParams run with
that field rewritten to 0.080 — the request is not unchanged. -/
theorem c9_counterexample :
    (validateCreateParams
        ⟨"demo", "myorg", "us-east-iad-1", "1.31.1", "", "calico", "",
         [⟨"p1", "myorg", "demo", "gp.vs1.medium-iad", "0.08", 1⟩], []⟩ false).1 = none ∧
    (validateCreateParams
        ⟨"demo", "myorg", "us-east-iad-1", "1.31.1", "", "calico", "",
         [⟨"p1", "myorg", "demo", "gp.vs1.medium-iad", "0.08", 1⟩], []⟩ false).2.SpotNodePools.map
        SpotNodePool.BidPrice = ["0.080"] ∧
    (validateCreateParams
        ⟨"demo", "myorg", "us-east-iad-1", "1.31.1", "", "calico", "",
         [⟨"p1", "myorg", "demo", "gp.vs1.medium-iad", "0.08", 1⟩], []⟩ false).2
      ≠ ⟨"demo", "myorg", "us-east-iad-1", "1.31.1", "", "calico", "",
         [⟨"p1", "myorg", "demo", "gp.vs1.medium-iad", "0.08", 1⟩], []⟩ := by
  refine ⟨by decide, by decide, by decide⟩

/-- Concrete instance of the C9 amended theorem. -/
theorem c9_validate_mutates_only_bid_prices_witness :
    (validateCreateParams noPoolParams true).2 = noPoolParams :=
  (c9_validate_mutates_only_bid_prices noPoolParams true).2.2.2.2.2.2.2.2.2.1 rfl

/-- C1 amended: in the cleanup-stack create command of src/unnamed/part_011
(the variant implementing the saga of the specification), a failure at the
pool numbered k (1-indexed, cluster first, then spot pools in list order,
then on-demand pools in list order) rolls back exactly the k - 1 previously
created pools, and no pool numbered k..n is ever created: the trace holds
exactly k pool creations, all at overall positions below k, and exactly
k - 1 pool deletions, all at overall positions below k - 1.  The cluster,
however, is not rolled back as the claim states: the cleanup issues one
DeleteCloudspace call with the cloudspace name in the org position and the
org in the name position (part_011 line 744, transposed against the
DeleteCloudspace org-then-name order of every other call site), so no
correctly addressed deletion of the created cloudspace appears in the
trace whenever the name and the org differ.  The context-cancellation
variant of src/unnamed/part_008 deletes only the cluster (correctly
addressed) and no pools, as the C1 counterexample shows. -/
theorem c1_stack_rollback (env : EnvB) (csOrg csName : String)
    (spots : List SpotNodePool) (ods : List OnDemandNodePool) (k : Nat)
    (hvs : firstBadSpotB 0 spots = none) (hvo : firstBadOdB 0 ods = none)
    (hcl : env.clusterCreateOk = true)
    (hk1 : 1 ≤ k) (hkn : k ≤ spots.length + ods.length)
    (hok : ∀ j, j + 1 < k → overallOk env spots.length j = true)
    (hfail : overallOk env spots.length (k - 1) = false) :
    (poolDeletes (runCreateStack env csOrg csName spots ods).2).length = k - 1 ∧
    (poolCreates (runCreateStack env csOrg csName spots ods).2).length = k ∧
    Action.deleteCloudspaceCall csName csOrg ∈ (runCreateStack env csOrg csName spots ods).2 ∧
    Action.deleteCluster ∉ (runCreateStack env csOrg csName spots ods).2 ∧
    (csName ≠ csOrg →
      Action.deleteCloudspaceCall csOrg csName ∉ (runCreateStack env csOrg csName spots ods).2) ∧
    (∀ kind j, Action.createPool kind j ∈ (runCreateStack env csOrg csName spots ods).2 →
      overallIdx spots.length kind j < k) ∧
    (∀ kind j, Action.deletePool kind j ∈ (runCreateStack env csOrg csName spots ods).2 →
      overallIdx spots.length kind j < k - 1) := by
  by_cases hcase : k - 1 < spots.length
  · have hloop := poolLoopB_fail env.spotCreateOk PoolKind.spot spots.length 0 (k - 1) hcase
      (fun j hj => by
        have h2 := hok j (by omega)
        unfold overallOk at h2
        rw [if_pos (by omega)] at h2
        simpa using h2)
      (by
        unfold overallOk at hfail
        rw [if_pos hcase] at hfail
        simpa using hfail)
    have htr : (runCreateStack env csOrg csName spots ods).2 =
        Action.createCluster ::
          ((List.range' 0 (k - 1 + 1)).map (Action.createPool PoolKind.spot)
            ++ (((List.range' 0 (k - 1)).map (Action.deletePool PoolKind.spot)).reverse
              ++ [Action.deleteCloudspaceCall csName csOrg])) := by
      simp [runCreateStack, hvs, hvo, hcl, hloop]
    rw [htr]
    refine ⟨?_, ?_, ?_, ?_, ?_, ?_, ?_⟩
    · simp only [poolDeletes, List.filter_cons, List.filter_append, List.filter_reverse,
        isPoolDelete_createCluster, isPoolDelete_deleteCluster]
      rw [← poolDeletes, ← poolDeletes, poolDeletes_creates_nil, poolDeletes_deletes_self]
      simp
    · simp only [poolCreates, List.filter_cons, List.filter_append, List.filter_reverse,
        isPoolCreate_createCluster, isPoolCreate_deleteCluster]
      rw [← poolCreates, ← poolCreates, poolCreates_creates_self, poolCreates_deletes_nil]
      simp
      omega
    · simp
    · simp
    · intro hne hmem
      rcases List.mem_cons.mp hmem with h1 | h2
      · exact absurd h1 (by simp)
      rcases List.mem_append.mp h2 with h3 | h4
      · obtain ⟨x, hx, he⟩ := List.mem_map.mp h3
        exact absurd he (by simp)
      rcases List.mem_append.mp h4 with h5 | h6
      · rw [List.mem_reverse] at h5
        obtain ⟨x, hx, he⟩ := List.mem_map.mp h5
        exact absurd he (by simp)
      · obtain ⟨ho2, hn2⟩ := Action.deleteCloudspaceCall.inj (List.mem_singleton.mp h6)
        exact hne hn2
    · intro kind j hmem
      rcases List.mem_cons.mp hmem with h1 | h2
      · exact absurd h1 (by simp)
      rcases List.mem_append.mp h2 with h3 | h4
      · obtain ⟨x, hx, he⟩ := List.mem_map.mp h3
        obtain ⟨hkind, hj⟩ := Action.createPool.inj he
        subst hkind
        subst hj
        rw [List.mem_range'] at hx
        obtain ⟨i2, hi2, hix⟩ := hx
        simp only [overallIdx]
        omega
      rcases List.mem_append.mp h4 with h5 | h6
      · rw [List.mem_reverse] at h5
        obtain ⟨x, hx, he⟩ := List.mem_map.mp h5
        exact absurd he (by simp)
      · exact absurd (List.mem_singleton.mp h6) (by simp)
    · intro kind j hmem
      rcases List.mem_cons.mp hmem with h1 | h2
      · exact absurd h1 (by simp)
      rcases List.mem_append.mp h2 with h3 | h4
      · obtain ⟨x, hx, he⟩ := List.mem_map.mp h3
        exact absurd he (by simp)
      rcases List.mem_append.mp h4 with h5 | h6
      · rw [List.mem_reverse] at h5
        obtain ⟨x, hx, he⟩ := List.mem_map.mp h5
        obtain ⟨hkind, hj⟩ := Action.deletePool.inj he
        subst hkind
        subst hj
        rw [List.mem_range'] at hx
        obtain ⟨i2, hi2, hix⟩ := hx
        simp only [overallIdx]
        omega
      · exact absurd (List.mem_singleton.mp h6) (by simp)
  · have hspot := poolLoopB_all_ok env.spotCreateOk PoolKind.spot spots.length 0
      (fun j hj => by
        have h2 := hok j (by omega)
        unfold overallOk at h2
        rw [if_pos (by omega)] at h2
        simpa using h2)
    have hfo : k - 1 - spots.length < ods.length := by omega
    have hod := poolLoopB_fail env.odCreateOk PoolKind.onDemand ods.length 0
      (k - 1 - spots.length) hfo
      (fun j hj => by
        have h2 := hok (spots.length + j) (by omega)
        unfold overallOk at h2
        rw [if_neg (by omega)] at h2
        simpa using h2)
      (by
        unfold overallOk at hfail
        rw [if_neg (by omega)] at hfail
        simpa using hfail)
    have htr : (runCreateStack env csOrg csName spots ods).2 =
        Action.createCluster ::
          ((List.range' 0 spots.length).map (Action.createPool PoolKind.spot)
            ++ ((List.range' 0 (k - 1 - spots.length + 1)).map (Action.createPool PoolKind.onDemand)
            ++ ((((List.range' 0 spots.length).map (Action.deletePool PoolKind.spot))
              ++ ((List.range' 0 (k - 1 - spots.length)).map (Action.deletePool PoolKind.onDemand))).reverse
              ++ [Action.deleteCloudspaceCall csName csOrg]))) := by
      simp [runCreateStack, hvs, hvo, hcl, hspot, hod]
    rw [htr]
    refine ⟨?_, ?_, ?_, ?_, ?_, ?_, ?_⟩
    · simp only [poolDeletes, List.filter_cons, List.filter_append, List.filter_reverse,
        isPoolDelete_createCluster, isPoolDelete_deleteCluster]
      rw [← poolDeletes, ← poolDeletes, ← poolDeletes, ← poolDeletes,
        poolDeletes_creates_nil, poolDeletes_creates_nil,
        poolDeletes_deletes_self, poolDeletes_deletes_self]
      simp
      omega
    · simp only [poolCreates, List.filter_cons, List.filter_append, List.filter_reverse,
        isPoolCreate_createCluster, isPoolCreate_deleteCluster]
      rw [← poolCreates, ← poolCreates, ← poolCreates, ← poolCreates,
        poolCreates_creates_self, poolCreates_creates_self,
        poolCreates_deletes_nil, poolCreates_deletes_nil]
      simp
      omega
    · simp
    · simp
    · intro hne hmem
      rcases List.mem_cons.mp hmem with h1 | h2
      · exact absurd h1 (by simp)
      rcases List.mem_append.mp h2 with h3 | h4
      · obtain ⟨x, hx, he⟩ := List.mem_map.mp h3
        exact absurd he (by simp)
      rcases List.mem_append.mp h4 with h5 | h6
      · obtain ⟨x, hx, he⟩ := List.mem_map.mp h5
        exact absurd he (by simp)
      rcases List.mem_append.mp h6 with h7 | h8
      · rw [List.mem_reverse] at h7
        rcases List.mem_append.mp h7 with h9 | h10
        · obtain ⟨x, hx, he⟩ := List.mem_map.mp h9
          exact absurd he (by simp)
        · obtain ⟨x, hx, he⟩ := List.mem_map.mp h10
          exact absurd he (by simp)
      · obtain ⟨ho2, hn2⟩ := Action.deleteCloudspaceCall.inj (List.mem_singleton.mp h8)
        exact hne hn2
    · intro kind j hmem
      rcases List.mem_cons.mp hmem with h1 | h2
      · exact absurd h1 (by simp)
      rcases List.mem_append.mp h2 with h3 | h4
      · obtain ⟨x, hx, he⟩ := List.mem_map.mp h3
        obtain ⟨hkind, hj⟩ := Action.createPool.inj he
        subst hkind
        subst hj
        rw [List.mem_range'] at hx
        obtain ⟨i2, hi2, hix⟩ := hx
        simp only [overallIdx]
        omega
      rcases List.mem_append.mp h4 with h5 | h6
      · obtain ⟨x, hx, he⟩ := List.mem_map.mp h5
        obtain ⟨hkind, hj⟩ := Action.createPool.inj he
        subst hkind
        subst hj
        rw [List.mem_range'] at hx
        obtain ⟨i2, hi2, hix⟩ := hx
        simp only [overallIdx]
        omega
      rcases List.mem_append.mp h6 with h7 | h8
      · rw [List.mem_reverse] at h7
        rcases List.mem_append.mp h7 with h9 | h10
        · obtain ⟨x, hx, he⟩ := List.mem_map.mp h9
          exact absurd he (by simp)
        · obtain ⟨x, hx, he⟩ := List.mem_map.mp h10
          exact absurd he (by simp)
      · exact absurd (List.mem_singleton.mp h8) (by simp)
    · intro kind j hmem
      rcases List.mem_cons.mp hmem with h1 | h2
      · exact absurd h1 (by simp)
      rcases List.mem_append.mp h2 with h3 | h4
      · obtain ⟨x, hx, he⟩ := List.mem_map.mp h3
        exact absurd he (by simp)
      rcases List.mem_append.mp h4 with h5 | h6
      · obtain ⟨x, hx, he⟩ := List.mem_map.mp h5
        exact absurd he (by simp)
      rcases List.mem_append.mp h6 with h7 | h8
      · rw [List.mem_reverse] at h7
        rcases List.mem_append.mp h7 with h9 | h10
        · obtain ⟨x, hx, he⟩ := List.mem_map.mp h9
          obtain ⟨hkind, hj⟩ := Action.deletePool.inj he
          subst hkind
          subst hj
          rw [List.mem_range'] at hx
          obtain ⟨i2, hi2, hix⟩ := hx
          simp only [overallIdx]
          omega
        · obtain ⟨x, hx, he⟩ := List.mem_map.mp h10
          obtain ⟨hkind, hj⟩ := Action.deletePool.inj he
          subst hkind
          subst hj
          rw [List.mem_range'] at hx
          obtain ⟨i2, hi2, hix⟩ := hx
          simp only [overallIdx]
          omega
      · exact absurd (List.mem_singleton.mp h8) (by simp)

/-- C1 counterexample: in the context-cancellation create command of
src/unnamed/part_008 (the final creation path, cited by the claim), a
failure at pool k = 2 of n = 2 rolls back zero pools — not k - 1 = 1: the
already created first pool is never deleted, only the cluster is. -/
theorem c1_counterexample :
    (runCreateCtx envC1 spotsC1 []).1 = OutcomeA.spotCreateFailed "p2" ∧
    (runCreateCtx envC1 spotsC1 []).2 =
      [Action.createCluster, Action.createPool PoolKind.spot 0,
       Action.createPool PoolKind.spot 1, Action.deleteCluster] ∧
    (poolDeletes (runCreateCtx envC1 spotsC1 []).2).length = 0 ∧
    (poolDeletes (runCreateCtx envC1 spotsC1 []).2).length ≠ 2 - 1 := by
  refine ⟨rfl, rfl, rfl, by decide⟩

/-- Concrete instance of the C1 amended theorem: two spot pools, the second
creation fails; the rollback deletes exactly one pool, and no correctly
addressed deletion of the created cloudspace (org myorg, name demo) is
issued. -/
theorem c1_stack_rollback_witness :
    (poolDeletes (runCreateStack ⟨true, fun i => i == 0, fun _ => true, true⟩
      "myorg" "demo" spotsC1 []).2).length = 1 ∧
    Action.deleteCloudspaceCall "myorg" "demo" ∉
      (runCreateStack ⟨true, fun i => i == 0, fun _ => true, true⟩
        "myorg" "demo" spotsC1 []).2 :=
  ⟨(c1_stack_rollback ⟨true, fun i => i == 0, fun _ => true, true⟩ "myorg" "demo"
      spotsC1 [] 2 rfl rfl rfl (by norm_num) (by decide)
      (fun j hj => by
        have hj0 : j = 0 := by omega
        subst hj0
        decide)
      (by decide)).1,
   (c1_stack_rollback ⟨true, fun i => i == 0, fun _ => true, true⟩ "myorg" "demo"
      spotsC1 [] 2 rfl rfl rfl (by norm_num) (by decide)
      (fun j hj => by
        have hj0 : j = 0 := by omega
        subst hj0
        decide)
      (by decide)).2.2.2.2.1 (by decide)⟩

/-- With a sticky cancellation signal set by check point c0, the spot loop
of the context-cancellation command issues fewer pool creations than checks
remaining before c0. -/
theorem spotLoopA_cancel_bound (env : EnvA)
    (hmono : ∀ a b, a ≤ b → env.cancelled a = true → env.cancelled b = true)
    (c0 : Nat) (hc0 : env.cancelled c0 = true) :
    ∀ pools : List SpotNodePool, ∀ c i,
      (poolCreates (spotLoopA env c i pools).1).length ≤ c0 - c := by
  intro pools
  induction pools with
  | nil =>
    intro c i
    simp [spotLoopA, poolCreates]
  | cons p rest ih =>
    intro c i
    by_cases hcan : env.cancelled c = true
    · rw [spotLoopA, if_pos hcan]
      simp [poolCreates]
    · have hlt : c < c0 := by
        by_contra hge
        exact hcan (hmono c0 c (by omega) hc0)
      rw [spotLoopA, if_neg hcan]
      rcases hvb : validateBidPrice p.BidPrice with e | bp1
      · simp [poolCreates]
      · rcases hgb : getBidPrice bp1 with e | bp2
        · simp only [hgb]
          simp [poolCreates]
        · simp only [hgb]
          by_cases hco : env.spotCreateOk i = true
          · rw [if_neg (by simp [hco])]
            by_cases hvo : env.spotVerifyOk i = true
            · rw [if_neg (by simp [hvo])]
              have hrec := ih (c + 1) (i + 1)
              simp only [poolCreates, List.filter_cons, isPoolCreate_createPool,
                if_true, List.length_cons] at hrec ⊢
              omega
            · rw [if_pos (by simpa using hvo)]
              simp [poolCreates]
              omega
          · rw [if_pos (by simpa using hco)]
            simp [poolCreates]
            omega

/-- A completed spot loop created every pool and saw no cancellation. -/
theorem spotLoopA_complete (env : EnvA) :
    ∀ pools : List SpotNodePool, ∀ c i, (spotLoopA env c i pools).2 = none →
      (poolCreates (spotLoopA env c i pools).1).length = pools.length ∧
      ∀ j, j < pools.length → env.cancelled (c + j) = false := by
  intro pools
  induction pools with
  | nil =>
    intro c i _
    refine ⟨by simp [spotLoopA, poolCreates], ?_⟩
    intro j hj
    exact absurd hj (by simp)
  | cons p rest ih =>
    intro c i hdone
    by_cases hcan : env.cancelled c = true
    · rw [spotLoopA, if_pos hcan] at hdone
      exact absurd hdone (by simp)
    · rw [spotLoopA, if_neg hcan] at hdone
      rw [spotLoopA, if_neg hcan]
      rcases hvb : validateBidPrice p.BidPrice with e | bp1
      · simp only [hvb] at hdone
        exact absurd hdone (by simp)
      · simp only [hvb] at hdone
        rcases hgb : getBidPrice bp1 with e | bp2
        · simp only [hgb] at hdone
          exact absurd hdone (by simp)
        · simp only [hgb] at hdone ⊢
          by_cases hco : env.spotCreateOk i = true
          · rw [if_neg (by simp [hco])] at hdone ⊢
            by_cases hvo : env.spotVerifyOk i = true
            · rw [if_neg (by simp [hvo])] at hdone ⊢
              obtain ⟨hcount, hchecks⟩ := ih (c + 1) (i + 1) hdone
              constructor
              · simp only [poolCreates, List.filter_cons, isPoolCreate_createPool,
                  if_true, List.length_cons] at hcount ⊢
                omega
              · intro j hj
                rcases Nat.eq_zero_or_pos j with rfl | hjpos
                · simpa using hcan
                · have h5 := hchecks (j - 1) (by simp at hj; omega)
                  have heq : c + 1 + (j - 1) = c + j := by omega
                  rwa [heq] at h5
            · rw [if_pos (by simpa using hvo)] at hdone
              exact absurd hdone (by simp)
          · rw [if_pos (by simpa using hco)] at hdone
            exact absurd hdone (by simp)

/-- With a sticky cancellation signal set by check point c0, the on-demand
loop of the context-cancellation command issues fewer pool creations than
checks remaining before c0. -/
theorem odLoopA_cancel_bound (env : EnvA)
    (hmono : ∀ a b, a ≤ b → env.cancelled a = true → env.cancelled b = true)
    (c0 : Nat) (hc0 : env.cancelled c0 = true) :
    ∀ pools : List OnDemandNodePool, ∀ c i,
      (poolCreates (odLoopA env c i pools).1).length ≤ c0 - c := by
  intro pools
  induction pools with
  | nil =>
    intro c i
    simp [odLoopA, poolCreates]
  | cons p rest ih =>
    intro c i
    by_cases hcan : env.cancelled c = true
    · rw [odLoopA, if_pos hcan]
      simp [poolCreates]
    · have hlt : c < c0 := by
        by_contra hge
        exact hcan (hmono c0 c (by omega) hc0)
      rw [odLoopA, if_neg hcan]
      by_cases hco : env.odCreateOk i = true
      · rw [if_neg (by simp [hco])]
        by_cases hvo : env.odVerifyOk i = true
        · rw [if_neg (by simp [hvo])]
          have hrec := ih (c + 1) (i + 1)
          simp only [poolCreates, List.filter_cons, isPoolCreate_createPool,
            if_true, List.length_cons] at hrec ⊢
          omega
        · rw [if_pos (by simpa using hvo)]
          simp [poolCreates]
          omega
      · rw [if_pos (by simpa using hco)]
        simp [poolCreates]
        omega

/-- C4: in the context-cancellation create command, no resource-creation
call is ever issued after the cancellation signal has been observed — with a
sticky signal set by check point c0, at most c0 - 1 pool creations occur in
any run — and in the scenario where the signal fires after cluster creation
but before the first pool creation (observed at check point 1), the saga
deletes the already created cluster, creates zero pools, and returns the
cancellation outcome, a constructor distinct from every failure outcome. -/
theorem c4_cancellation (env : EnvA) (spots : List SpotNodePool)
    (ods : List OnDemandNodePool)
    (hmono : ∀ a b, a ≤ b → env.cancelled a = true → env.cancelled b = true) :
    (∀ c0, env.cancelled c0 = true →
      (poolCreates (runCreateCtx env spots ods).2).length ≤ c0 - 1) ∧
    (env.cancelled 0 = false → env.cancelled 1 = true → env.clusterCreateOk = true →
      spots ≠ [] →
      (runCreateCtx env spots ods).1 = OutcomeA.cancelledDuringSpot ∧
      (runCreateCtx env spots ods).2 = [Action.createCluster, Action.deleteCluster]) ∧
    (∀ poolName : String,
      OutcomeA.cancelledDuringSpot ≠ OutcomeA.spotCreateFailed poolName ∧
      OutcomeA.cancelledDuringSpot ≠ OutcomeA.odCreateFailed poolName ∧
      OutcomeA.cancelledDuringSpot ≠ OutcomeA.clusterCreateFailed ∧
      OutcomeA.cancelledDuringSpot ≠ OutcomeA.success) := by
  refine ⟨?_, ?_, ?_⟩
  · intro c0 hc0
    simp only [runCreateCtx]
    by_cases h0 : env.cancelled 0 = true
    · rw [if_pos h0]
      simp [poolCreates]
    · rw [if_neg h0]
      have hc0pos : 1 ≤ c0 := by
        rcases Nat.eq_zero_or_pos c0 with rfl | h
        · exact absurd hc0 h0
        · exact h
      by_cases hcl : env.clusterCreateOk = true
      · rw [if_neg (by simp [hcl])]
        rcases hrs : (spotLoopA env 1 0 spots).2 with _ | out
        · simp only [hrs]
          obtain ⟨hcount, hchecks⟩ := spotLoopA_complete env spots 1 0 hrs
          have hbig : spots.length + 1 ≤ c0 := by
            by_contra hsmall
            have hj : c0 - 1 < spots.length := by omega
            have := hchecks (c0 - 1) hj
            have heq : 1 + (c0 - 1) = c0 := by omega
            rw [heq] at this
            exact absurd hc0 (by simp [this])
          have hod := odLoopA_cancel_bound env hmono c0 hc0 ods (1 + spots.length) 0
          rcases hro : (odLoopA env (1 + spots.length) 0 ods).2 with _ | out2
          · simp only [hro]
            simp only [poolCreates, List.filter_cons, isPoolCreate_createCluster,
              List.filter_append, List.length_append, Bool.false_eq_true, if_false]
              at hcount hod ⊢
            omega
          · simp only [hro]
            simp only [poolCreates, List.filter_cons, isPoolCreate_createCluster,
              List.filter_append, List.length_append, Bool.false_eq_true, if_false]
              at hcount hod ⊢
            omega
        · simp only [hrs]
          have hsp := spotLoopA_cancel_bound env hmono c0 hc0 spots 1 0
          simp only [poolCreates, List.filter_cons, isPoolCreate_createCluster,
            Bool.false_eq_true, if_false] at hsp ⊢
          omega
      · rw [if_pos (by simp [hcl])]
        simp [poolCreates]
  · intro h0 h1 hcl hne
    simp only [runCreateCtx]
    rw [if_neg (by simp [h0]), if_neg (by simp [hcl])]
    rcases spots with _ | ⟨p, rest⟩
    · exact absurd rfl hne
    · have hloop : spotLoopA env 1 0 (p :: rest) =
          ([Action.deleteCluster], some OutcomeA.cancelledDuringSpot) := by
        rw [spotLoopA, if_pos h1]
      simp only [hloop]
      exact ⟨trivial, trivial⟩
  · intro poolName
    refine ⟨by simp, by simp, by simp, by simp⟩

/-- Concrete instance of the C4 theorem: cancellation observed before the
first pool creation deletes the cluster and creates no pools. -/
theorem c4_cancellation_witness :
    (runCreateCtx envC4 spotsC1 []).1 = OutcomeA.cancelledDuringSpot ∧
    (runCreateCtx envC4 spotsC1 []).2 = [Action.createCluster, Action.deleteCluster] :=
  (c4_cancellation envC4 spotsC1 []
    (fun a b hab ha => by
      simp only [envC4, decide_eq_true_eq] at ha ⊢
      omega)).2.1 rfl rfl rfl (by simp [spotsC1])

/-- Concrete instance of the C6 amended theorem. -/
theorem c6_on_demand_desired_validated_witness :
    (1 : Int) ≤ 2 ∧ (validateCreateParams
      ⟨"demo", "myorg", "us-east-iad-1", "1.31.1", "", "calico", "", [],
       [⟨"q1", "myorg", "demo", "gp.vs1.medium-iad", 2⟩]⟩ false).1 = none := by
  refine ⟨?_, by decide⟩
  exact c6_on_demand_desired_validated
    ⟨"demo", "myorg", "us-east-iad-1", "1.31.1", "", "calico", "", [],
     [⟨"q1", "myorg", "demo", "gp.vs1.medium-iad", 2⟩]⟩ (by decide)
    ⟨"q1", "myorg", "demo", "gp.vs1.medium-iad", 2⟩ (by simp)

end Spotctl
